import Mathlib

/-!
Shallow embedding of `psychopy/speech/google_speech.py` (threaded Google
speech-recognition client) and verification of its specification claims.

Modelling conventions:
* Wall-clock time (`time.time()` / `time.clock()`) is an abstract rational
  passed in explicitly at each point the code reads the clock.
* The network (`urllib2.urlopen`) is an oracle `Nat → Except String Payload`:
  attempt `i` either raises an exception with message `str(ex)` (`.error`)
  or returns a response whose body parses to `Payload` (`.ok`).
* Python floats are modelled as rationals; a JSON number carries both its
  textual `str()` rendering (used by `"%s"` formatting) and its numeric value.
* Exceptions escaping a modelled function are `Option`-`none` (for `run`:
  the thread dies, no further field writes happen).
-/

namespace GoogleSpeech

/-- A JSON value as it appears in a response payload: either a string or a
number. `jnum` carries the Python `str()` rendering used by `"%s"`
formatting alongside the numeric value; `float()` applied to a string value
is modelled as a failure (non-numeric coercion). -/
inductive JVal where
  | jstr (s : String)
  | jnum (s : String) (q : ℚ)
deriving DecidableEq, Repr

/-- The `"%s"` rendering of a JSON value. -/
def JVal.render : JVal → String
  | .jstr s => s
  | .jnum s _ => s

/-- Python `float(v)`: a number coerces to its value; string parsing is not
modelled and is treated as the raising case. -/
def JVal.toFloat : JVal → Option ℚ
  | .jstr _ => none
  | .jnum _ q => some q

/-- The JSON object decoded from a successful response body (`json.load`).
`hypotheses` is the value of the `"hypotheses"` key: an ordered list of
hypothesis objects, each an ordered list of key/value pairs (dict iteration
order). `topPairs` lists every top-level key/value pair other than
`"hypotheses"`, in dict iteration order; it includes the `"status"` entry,
whose integer value is also exposed directly as `status` (the inbound
interface guarantees `status` is present and an integer). -/
structure Payload where
  status : Int
  hypotheses : List (List (String × JVal))
  topPairs : List (String × JVal)
deriving DecidableEq, Repr

/-- Left-justified minimum-width padding, Python `"%-10s" % s` for width `n`. -/
def padRight (s : String) (n : Nat) : String :=
  s ++ String.mk (List.replicate (n - s.length) ' ')

/-- One report line, `"%-10s : %s" % (k, v)`. -/
def fmtLine (k : String) (v : JVal) : String :=
  padRight k 10 ++ " : " ++ v.render

/-- The `report` list built by `_unpackRaw`: one line per field of each
hypothesis object (in order), then one line per top-level pair other than
`"hypotheses"`. -/
def reportLines (p : Payload) : List String :=
  (p.hypotheses.flatMap fun h => h.map fun kv => fmtLine kv.1 kv.2) ++
    p.topPairs.map fun kv => fmtLine kv.1 kv.2

/-- Helper for Python `str.split(c)`: cut the character list at every
occurrence of `c`; `acc` is the current segment reversed. -/
def pySplitAux (c : Char) : List Char → List Char → List (List Char)
  | [], acc => [acc.reverse]
  | x :: xs, acc =>
    if x = c then acc.reverse :: pySplitAux c xs []
    else pySplitAux c xs (x :: acc)

/-- Python `s.split(c)` for a single-character separator. -/
def pySplit (s : String) (c : Char) : List String :=
  (pySplitAux c s.data []).map String.mk

/-- Python `s.lstrip()`: drop leading whitespace. -/
def pyLStrip (s : String) : String :=
  String.mk (s.data.dropWhile Char.isWhitespace)

/-- Python `s.startswith(pre)`. -/
def pyStartsWith (s pre : String) : Bool :=
  pre.data.isPrefixOf s.data

/-- `line.split(':')[1].lstrip()` applied to one report line. Every report
line contains `" : "`, so index 1 exists; out of range is defaulted. -/
def wordOfLine (line : String) : String :=
  pyLStrip ((pySplit line ':').getD 1 "")

/-- `self.words`: the lines of the report that start with `"utterance"`,
each cut at its first `':'` and left-stripped. -/
def wordsOf (p : Payload) : List String :=
  ((reportLines p).filter fun line => pyStartsWith line "utterance").map wordOfLine

/-- The final value of `self.confidence` after the hypothesis loop: every
value stored under a key `"confidence"` is passed through `float()` (any
coercion failure raises, modelled as `none`); the last one wins, and the
initial value is kept when no confidence key occurs. -/
def confidenceOf (init : Option ℚ) (p : Payload) : Option (Option ℚ) :=
  (p.hypotheses.flatMap fun h => h.filter fun kv => kv.1 = "confidence").foldl
    (fun acc kv => acc.bind fun _ => (kv.2.toFloat).map some)
    (some init)

/-- `self.detailed`: the report joined with newlines. -/
def detailedOf (p : Payload) : String :=
  String.intercalate "\n" (reportLines p)

/-- The mutable state of a `_GSQueryThread`, i.e. the fields set by
`__init__`/`_reset` and mutated by `run`, `stop` and `getResponse`.
`errMsg` records the failure message sent to `_message`/`_warn` when both
network attempts fail (the code logs it rather than storing it; it is the
only observable distinguishing a transport failure from a timeout).
`completed` is the program counter fact "`run()` has returned", used by the
state-machine abstraction; it is not a Python field. -/
structure TaskState where
  t0 : Option ℚ
  duration : Option ℚ
  stopflag : Bool
  running : Bool
  timedout : Bool
  started : Bool
  confidence : Option ℚ
  conf : Option ℚ
  json : Option Payload
  raw : Option Payload
  word : String
  detailed : String
  words : List String
  status : Option Int
  errMsg : Option String
  completed : Bool
deriving DecidableEq, Repr

/-- The state established by `_GSQueryThread.__init__` + `_reset`. -/
def initTask : TaskState :=
  { t0 := none, duration := none, stopflag := false, running := false,
    timedout := false, started := false, confidence := none, conf := none,
    json := none, raw := none, word := "", detailed := "", words := [],
    status := none, errMsg := none, completed := false }

/-- `_unpackRaw`: decode the raw response, expose `json`, `status`,
`confidence`, `detailed`, `words`, `word`. `none` models an exception
escaping (e.g. `float()` failing on a confidence value). -/
def unpackRaw (s : TaskState) (p : Payload) : Option TaskState :=
  (confidenceOf s.confidence p).map fun conf =>
    { s with
      json := some p
      status := some p.status
      confidence := conf
      conf := conf
      detailed := detailedOf p
      words := wordsOf p
      word := ((wordsOf p).headD "") }

/-- The head of `run()`: record the start time, raise the running/started
flags, zero the duration. -/
def runStart (s : TaskState) (tStart : ℚ) : TaskState :=
  { s with t0 := some tStart, running := true, started := true, duration := some 0 }

/-- The network phase of `run()`: `urllib2.urlopen` wrapped in
try/except-try/except. The first attempt's exception (whatever it is) is
swallowed and the call is reissued once; a second failure is logged
(`_message`/`_warn` with `str(ex)`, recorded here as `errMsg`) and
`running` is cleared. The second result list component is the log. -/
def netPhase (s : TaskState) (attempts : Nat → Except String Payload) :
    TaskState × List String :=
  match attempts 0 with
  | .ok p => ({ s with raw := some p }, [])
  | .error _ =>
    match attempts 1 with
    | .ok p => ({ s with raw := some p }, [])
    | .error m => ({ s with running := false, errMsg := some m }, [m])

/-- The tail of `run()`: freeze `duration`, then either unpack the data
(when nobody cleared `running` in the meantime) and finish clean, or mark
the task timed out. `none` models an exception escaping `run()` (the
thread dies before the remaining writes). `completed` records that `run()`
returned. -/
def runFinish (s : TaskState) (tEnd : ℚ) : Option TaskState :=
  let s1 : TaskState := { s with duration := some (tEnd - s.t0.getD 0) }
  if s1.running then
    match s1.raw with
    | some p =>
      (unpackRaw s1 p).map fun s2 =>
        { s2 with running := false, timedout := false, completed := true }
    | none => none
  else
    some { s1 with timedout := true, completed := true }

/-- `stop()`: clear the running flag (cooperative cancellation). -/
def stopTask (s : TaskState) : TaskState :=
  { s with running := false }

/-- A whole execution of `run()` from state `s`: start at time `tStart`,
issue the network call(s), let `stop()` be invoked concurrently when
`stopDuring` is set (any point between the start and the `running` check is
equivalent), finish at time `tEnd`. Returns the final state and the log,
or `none` when an exception escapes `run()`. -/
def runTask (s : TaskState) (attempts : Nat → Except String Payload)
    (stopDuring : Bool) (tStart tEnd : ℚ) : Option (TaskState × List String) :=
  let (s1, log) := netPhase (runStart s tStart) attempts
  let s2 := if stopDuring then stopTask s1 else s1
  (runFinish s2 tEnd).map fun s3 => (s3, log)

/-- `elapsed()`: `None` before `run()` has begun, live delta while the
running flag is up, the frozen `duration` otherwise. -/
def elapsed (s : TaskState) (now : ℚ) : Option ℚ :=
  if s.started = false then none
  else if s.running then some (now - s.t0.getD 0)
  else s.duration

/-- The timeout branch of `GoogleSpeech.getResponse`: when the poll loop
gives up while the task is still running, stamp `status` with the sentinel
408; otherwise leave the task untouched. -/
def stampTimeout (s : TaskState) : TaskState :=
  if s.running then { s with status := some 408 } else s

/-- The five abstract lifecycle states of the specification. -/
inductive Phase where
  | created
  | runningPhase
  | succeeded
  | timedOut
  | failed
deriving DecidableEq, Repr

/-- Abstraction function from concrete task state to lifecycle phase.
Before `run()` begins the task is Created; until `run()` returns it is
Running (a `stop()` in that window only pre-classifies the eventual
terminal state); a completed run is Failed when the transport failure
message was recorded, TimedOut when `timedout` was raised without one, and
Succeeded otherwise. -/
def classify (s : TaskState) : Phase :=
  if s.started = false then .created
  else if s.completed = false then .runningPhase
  else if s.timedout then (if s.errMsg.isSome then .failed else .timedOut)
  else .succeeded

/-- A phase from which the specification allows no further transition. -/
def Phase.terminal : Phase → Bool
  | .succeeded => true
  | .timedOut => true
  | .failed => true
  | _ => false

/-- One observable transition of a query task: `run()` starting, `run()`
completing (network phase plus tail, as scheduled by the thread), or a
caller invoking `stop()`. `elapsed()` mutates nothing and needs no case. -/
inductive Step : TaskState → TaskState → Prop where
  | start (s : TaskState) (t : ℚ) : s.started = false → Step s (runStart s t)
  | complete (s s' : TaskState) (attempts : Nat → Except String Payload)
      (tEnd : ℚ) :
      s.started = true → s.completed = false →
      runFinish (netPhase s attempts).1 tEnd = some s' →
      Step s s'
  | stop (s : TaskState) : Step s (stopTask s)

/-- States reachable from a freshly constructed task. -/
inductive Reach : TaskState → Prop where
  | init : Reach initTask
  | step {s s' : TaskState} : Reach s → Step s s' → Reach s'

/-- Python `str.rfind`: index of the last occurrence of `c`, `-1` if absent. -/
def rfindChar (cs : List Char) (c : Char) : Int :=
  match (cs.enum.filter fun ic => ic.2 = c).getLast? with
  | some ic => (ic.1 : Int)
  | none => -1

/-- The extension component of `os.path.splitext(p)[1]` (posix rules, the
separator is a slash): the suffix from the last dot, provided that dot lies
after the last separator and the basename does not consist solely of dots
up to it. -/
def splitextExt (p : String) : String :=
  let cs := p.data
  let sepIndex := rfindChar cs '/'
  let dotIndex := rfindChar cs '.'
  if sepIndex < dotIndex then
    if (cs.enum.filter fun ic =>
          sepIndex < (ic.1 : Int) ∧ (ic.1 : Int) < dotIndex).any
        (fun ic => ic.2 ≠ '.') then
      String.mk (cs.drop dotIndex.toNat)
    else ""
  else ""

/-- The extensions accepted by `GoogleSpeech.__init__`. -/
def supportedExts : List String := [".flac", ".spx", ".wav"]

/-- The option bundle (`gsOptions`) fields consumed by `GoogleSpeech`. -/
structure Options where
  lang : String
  samplingrate : Int
  timeout : ℚ
  pro_filter : Int
  quiet : Bool
deriving DecidableEq, Repr

/-- The post-parse normalization in `_parse_options`: a sampling rate
outside {16000, 8000} is snapped to 16000, the timeout is capped at 30. -/
def parseOptionsPost (o : Options) : Options :=
  { o with
    samplingrate :=
      if o.samplingrate = 16000 ∨ o.samplingrate = 8000 then o.samplingrate
      else 16000
    timeout := min o.timeout 30 }

/-- The wav→flac conversion retry loop of `GoogleSpeech.__init__`:
`_shellCall(flac_cmd)` once, then `while not os.path.isfile(tmp)` reissue
it. `appears k` tells whether the temporary output file exists after the
`k`-th invocation (0-based). The source loop has no bound, so the model is
fuel-indexed: `none` means the loop is still spinning after `fuel`
existence checks; `some n` means it exited after `n` total invocations.
`i` counts invocations already made. -/
def transcodeFromFuel (appears : Nat → Bool) : Nat → Nat → Option Nat
  | 0, _ => none
  | fuel + 1, i => if appears i then some (i + 1) else transcodeFromFuel appears fuel (i + 1)

/-- Total number of encoder invocations performed by the wav→flac loop,
when it exits within `fuel` existence checks. -/
def transcodeInvocations (appears : Nat → Bool) (fuel : Nat) : Option Nat :=
  transcodeFromFuel appears fuel 0

/-- The externally visible side effects of `GoogleSpeech.__init__`, in
order. -/
inductive Action where
  | checkIsFile
  | transcodeInvoke
  | readFile
  | removeTmp
  | buildRequest
deriving DecidableEq, Repr

/-- The synchronous failures `GoogleSpeech.__init__` can raise (`IOError`,
`SoundFormatNotSupported`, `SoundFileError`) or the `sys.exit` taken when
the flac binary is missing. -/
inductive InitError where
  | ioError (msg : String)
  | soundFormatNotSupported (msg : String)
  | soundFileError (msg : String)
  | sysExit (msg : String)
deriving DecidableEq, Repr

/-- The outbound `urllib2.Request` value: URL with encoded query
parameters, content headers, audio body. -/
structure Request where
  url : String
  contentType : String
  userAgent : String
  audio : String
deriving DecidableEq, Repr

/-- The environment `GoogleSpeech.__init__` interacts with: the filesystem
at the initial existence check, whether the flac binary exists, the
transcode output oracle, and the outcome of the audio read (`none` = the
open/read raised after its bounded wait loop). -/
structure Env where
  isfile : String → Bool
  flacPathExists : Bool
  tmpAppears : Nat → Bool
  readResult : Option String

/-- The fixed user agent string. -/
def useragent : String :=
  "PsychoPy: open-source Psychology & Neuroscience tools; www.psychopy.org"

/-- The fixed endpoint. -/
def host : String := "www.google.com/speech-api/v1/recognize"

/-- The request URL, with query parameters exactly as concatenated in the
source (`opt.results` is set to 5 just before). -/
def buildUrl (o : Options) : String :=
  "https://" ++ host ++ "?xjerr=1&" ++ "client=psychopy2&" ++
    "lang=" ++ o.lang ++ "&" ++ "pfilter=" ++ toString o.pro_filter ++ "&" ++
    "maxresults=" ++ toString (5 : Int)

/-- The Content-Type header value, `'audio/%s; rate=%d'`. -/
def contentTypeHeader (filetype : String) (rate : Int) : String :=
  "audio/" ++ filetype ++ "; rate=" ++ toString rate

/-- The built request for a given codec subtype and audio body. -/
def mkRequest (o : Options) (filetype audio : String) : Request :=
  { url := buildUrl o
    contentType := contentTypeHeader filetype o.samplingrate
    userAgent := useragent
    audio := audio }

/-- `GoogleSpeech.__init__`: existence check, extension check, wav→flac
transcoding when needed, audio read with guaranteed tmp cleanup, request
construction. Result: the constructed request or the raised error,
together with the ordered side-effect trace; `none` means the unbounded
transcode loop has not exited within `fuel` checks. The tmp removal in the
`finally` block raises a swallowed `NameError` on non-wav paths, so
`removeTmp` appears only on the wav path; the `urllib2.Request`
construction (with its one retry) is external and modelled as succeeding. -/
def googleSpeechInit (env : Env) (fuel : Nat) (file : String) (opt : Options) :
    Option (Except InitError Request × List Action) :=
  let ext := splitextExt file
  if env.isfile file = false then
    some (.error (.ioError ("Cannot find file: " ++ file)), [.checkIsFile])
  else if supportedExts.contains ext = false then
    some (.error (.soundFormatNotSupported ("Unsupported filetype: " ++ ext)),
      [.checkIsFile])
  else if ext = ".wav" then
    if env.flacPathExists = false then
      some (.error (.sysExit
        "failed to find flac; if it is installed, use option -p path-to-flac"),
        [.checkIsFile])
    else
      match transcodeInvocations env.tmpAppears fuel with
      | none => none
      | some k =>
        let acts := [Action.checkIsFile] ++ List.replicate k .transcodeInvoke
        match env.readResult with
        | some audio =>
          some (.ok (mkRequest opt "x-flac" audio),
            acts ++ [.readFile, .removeTmp, .buildRequest])
        | none =>
          some (.error (.soundFileError ("Cannot read file for " ++ file)),
            acts ++ [.readFile, .removeTmp])
  else
    let filetype := if ext = ".flac" then "x-flac" else "x-speex-with-header-byte"
    match env.readResult with
    | some audio =>
      some (.ok (mkRequest opt filetype audio),
        [.checkIsFile, .readFile, .buildRequest])
    | none =>
      some (.error (.soundFileError ("Cannot read file for " ++ file)),
        [.checkIsFile, .readFile])

end GoogleSpeech

namespace GoogleSpeech

/-- The payload of spec §8 item 6: one hypothesis
`[("utterance","hello world"), ("confidence",0.87)]` and `status: 0`. -/
def samplePayload : Payload :=
  { status := 0
    hypotheses := [[("utterance", .jstr "hello world"),
                    ("confidence", .jnum "0.87" (87/100))]]
    topPairs := [("status", .jnum "0" 0)] }

/-- The `"utterance"` values of the hypotheses, in encounter order — the
specification wording for `words` (§4.3). -/
def specUtteranceValues (p : Payload) : List String :=
  ((p.hypotheses.flatMap fun h => h.filter fun kv => kv.1 = "utterance").map
    fun kv => kv.2.render)

lemma pySplitAux_ne_nil (c : Char) (cs acc : List Char) :
    pySplitAux c cs acc ≠ [] := by
  induction cs generalizing acc with
  | nil => simp [pySplitAux]
  | cons x xs ih =>
    simp only [pySplitAux]
    split
    · simp
    · exact ih _

lemma pySplitAux_headD (c : Char) (cs acc : List Char) :
    (pySplitAux c cs acc).headD [] = acc.reverse ++ cs.takeWhile (· != c) := by
  induction cs generalizing acc with
  | nil => simp [pySplitAux]
  | cons x xs ih =>
    simp only [pySplitAux, List.takeWhile_cons]
    by_cases hx : x = c
    · simp [hx]
    · rw [if_neg hx, ih (x :: acc)]
      simp [hx]

lemma pySplitAux_append_colon (c : Char) (cs rest acc : List Char)
    (h : c ∉ cs) :
    pySplitAux c (cs ++ c :: rest) acc =
      (acc.reverse ++ cs) :: pySplitAux c rest [] := by
  induction cs generalizing acc with
  | nil => simp [pySplitAux]
  | cons x xs ih =>
    simp only [List.cons_append, pySplitAux, List.append_eq]
    have hx : x ≠ c := fun hxc => h (hxc ▸ List.mem_cons_self x xs)
    simp only [if_neg hx]
    rw [ih _ (fun hm => h (List.mem_cons_of_mem x hm))]
    simp

end GoogleSpeech

namespace GoogleSpeech

lemma fmtLine_utterance_data (v : JVal) :
    (fmtLine "utterance" v).data = "utterance  ".data ++ ':' :: ' ' :: v.render.data := by
  have h1 : (padRight "utterance" 10 ++ " : ").data = "utterance  ".data ++ [':', ' '] := by
    decide
  show ((padRight "utterance" 10 ++ " : ") ++ v.render).data = _
  rw [String.data_append, h1]
  simp

/-- The word extracted from an `utterance` report line is the value text up
to its first colon, left-stripped: the `line.split(':')[1]` cut happens at
the first colon of the whole line, and the line already contains the one
from the `" : "` separator. -/
lemma wordOfLine_fmtLine_utterance (v : JVal) :
    wordOfLine (fmtLine "utterance" v) =
      pyLStrip (String.mk (v.render.data.takeWhile (· != ':'))) := by
  have hnc : ':' ∉ "utterance  ".data := by decide
  have hsplit : pySplitAux ':' (fmtLine "utterance" v).data [] =
      "utterance  ".data :: pySplitAux ':' (' ' :: v.render.data) [] := by
    rw [fmtLine_utterance_data]
    simpa using pySplitAux_append_colon ':' "utterance  ".data
      (' ' :: v.render.data) [] hnc
  obtain ⟨b, t, hbt⟩ : ∃ b t, pySplitAux ':' (' ' :: v.render.data) [] = b :: t := by
    cases hcase : pySplitAux ':' (' ' :: v.render.data) [] with
    | nil => exact absurd hcase (pySplitAux_ne_nil _ _ _)
    | cons b t => exact ⟨b, t, rfl⟩
  have hb : b = ' ' :: v.render.data.takeWhile (· != ':') := by
    have h2 := pySplitAux_headD ':' (' ' :: v.render.data) []
    rw [hbt] at h2
    simpa [List.takeWhile_cons] using h2
  simp only [wordOfLine, pySplit, hsplit, hbt, List.map_cons, List.getD,
    List.getElem?_cons_succ, List.getElem?_cons_zero, Option.getD_some, hb]
  simp [pyLStrip]

end GoogleSpeech

namespace GoogleSpeech

/-- A report line `"%-10s : %s" % (k, v)` starts with `"utterance"` exactly
when the key `k` does: the pad-to-10 keeps the first nine characters of the
line equal to the first nine of `k` (padded with spaces, which never match
the letters of `"utterance"`). -/
lemma pyStartsWith_fmtLine (k : String) (v : JVal) :
    pyStartsWith (fmtLine k v) "utterance" = pyStartsWith k "utterance" := by
  have hlen : ("utterance".data).length = 9 := by decide
  have hkd : k.length = k.data.length := rfl
  have hdata : (fmtLine k v).data =
      (k.data ++ List.replicate (10 - k.length) ' ') ++ (" : " ++ v.render).data := by
    show ((padRight k 10 ++ " : ") ++ v.render).data = _
    rw [String.data_append, String.data_append, String.data_append]
    simp [padRight]
  have hpadlen : 9 ≤ (k.data ++ List.replicate (10 - k.length) ' ').length := by
    rw [List.length_append, List.length_replicate]
    omega
  have htake : ((fmtLine k v).data).take 9 =
      (k.data ++ List.replicate (10 - k.length) ' ').take 9 := by
    rw [hdata, List.take_append_of_le_length hpadlen]
  by_cases hk : 9 ≤ k.data.length
  · have h9 : (k.data ++ List.replicate (10 - k.length) ' ').take 9 = k.data.take 9 :=
      List.take_append_of_le_length hk
    simp only [pyStartsWith]
    rw [Bool.eq_iff_iff, List.isPrefixOf_iff_prefix, List.isPrefixOf_iff_prefix,
      List.prefix_iff_eq_take, List.prefix_iff_eq_take, hlen, htake, h9]
  · push_neg at hk
    have h9 : (k.data ++ List.replicate (10 - k.length) ' ').take 9 =
        k.data ++ List.replicate (9 - k.data.length) ' ' := by
      rw [List.take_append_eq_append_take, List.take_of_length_le (le_of_lt hk),
        List.take_replicate]
      rw [show (9 - k.data.length) ⊓ (10 - k.length) = 9 - k.data.length by
        rw [← hkd]; exact min_eq_left (by omega)]
    have hleft : ("utterance".data = k.data ++ List.replicate (9 - k.data.length) ' ')
        ↔ False := by
      constructor
      · intro heq
        have hcontra : ∀ i, i < 9 → "utterance".data[i]? ≠ some ' ' := by decide
        have hidx : "utterance".data[k.data.length]? = some ' ' := by
          rw [heq, List.getElem?_append_right (le_refl _)]
          simp only [Nat.sub_self, List.getElem?_replicate]
          rw [if_pos (by omega)]
        exact hcontra k.data.length hk hidx
      · exact False.elim
    have hright : ("utterance".data = k.data.take 9) ↔ False := by
      constructor
      · intro heq
        have hlen2 := congrArg List.length heq
        rw [hlen, List.length_take] at hlen2
        omega
      · exact False.elim
    simp only [pyStartsWith]
    rw [Bool.eq_iff_iff, List.isPrefixOf_iff_prefix, List.isPrefixOf_iff_prefix,
      List.prefix_iff_eq_take, List.prefix_iff_eq_take, hlen, htake, h9, hleft, hright]

end GoogleSpeech

namespace GoogleSpeech

lemma takeWhile_ne_colon_all (l : List Char) (h : ':' ∉ l) :
    l.takeWhile (· != ':') = l := by
  induction l with
  | nil => rfl
  | cons x xs ih =>
    have hx : x ≠ ':' := fun e => h (e ▸ List.mem_cons_self x xs)
    rw [List.takeWhile_cons, if_pos (by simp [hx]),
      ih fun m => h (List.mem_cons_of_mem x m)]

lemma takeWhile_ne_colon_append (a b : List Char) (h : ':' ∉ a) :
    (a ++ ':' :: b).takeWhile (· != ':') = a := by
  induction a with
  | nil => simp [List.takeWhile_cons]
  | cons x xs ih =>
    have hx : x ≠ ':' := fun e => h (e ▸ List.mem_cons_self x xs)
    rw [List.cons_append, List.takeWhile_cons, if_pos (by simp [hx]),
      ih fun m => h (List.mem_cons_of_mem x m)]

lemma wordOfLine_utterance_nocolon (v : JVal) (h1 : ':' ∉ v.render.data)
    (h2 : pyLStrip v.render = v.render) :
    wordOfLine (fmtLine "utterance" v) = v.render := by
  rw [wordOfLine_fmtLine_utterance, takeWhile_ne_colon_all _ h1]
  exact h2

lemma words_filter_hyp (h : List (String × JVal))
    (hKeys : ∀ kv ∈ h, pyStartsWith kv.1 "utterance" = true → kv.1 = "utterance")
    (hVals : ∀ kv ∈ h, kv.1 = "utterance" →
      ':' ∉ kv.2.render.data ∧ pyLStrip kv.2.render = kv.2.render) :
    (((h.map fun kv => fmtLine kv.1 kv.2).filter
        fun line => pyStartsWith line "utterance").map wordOfLine)
      = ((h.filter fun kv => kv.1 = "utterance").map fun kv => kv.2.render) := by
  induction h with
  | nil => rfl
  | cons kv rest ih =>
    obtain ⟨k, v⟩ := kv
    have ihr := ih (fun x hx hs => hKeys x (List.mem_cons_of_mem _ hx) hs)
      (fun x hx hs => hVals x (List.mem_cons_of_mem _ hx) hs)
    by_cases hkey : k = "utterance"
    · subst hkey
      obtain ⟨h1, h2⟩ := hVals ⟨"utterance", v⟩ (List.mem_cons_self _ rest) rfl
      have hline : pyStartsWith (fmtLine "utterance" v) "utterance" = true := by
        rw [pyStartsWith_fmtLine]; decide
      rw [List.map_cons, List.filter_cons, if_pos hline, List.map_cons,
        List.filter_cons, if_pos (by simp), List.map_cons, ihr,
        wordOfLine_utterance_nocolon v h1 h2]
    · have hpw : pyStartsWith k "utterance" = false := by
        cases hpw2 : pyStartsWith k "utterance" with
        | false => rfl
        | true => exact absurd (hKeys ⟨k, v⟩ (List.mem_cons_self _ rest) hpw2) hkey
      have hline : ¬(pyStartsWith (fmtLine k v) "utterance" = true) := by
        rw [pyStartsWith_fmtLine, hpw]; simp
      rw [List.map_cons, List.filter_cons, if_neg hline, List.filter_cons,
        if_neg (by simp [hkey]), ihr]

lemma words_filter_top (tp : List (String × JVal))
    (hTop : ∀ kv ∈ tp, pyStartsWith kv.1 "utterance" = false) :
    (tp.map fun kv => fmtLine kv.1 kv.2).filter
        (fun line => pyStartsWith line "utterance") = [] := by
  induction tp with
  | nil => rfl
  | cons kv rest ih =>
    have hline : ¬(pyStartsWith (fmtLine kv.1 kv.2) "utterance" = true) := by
      rw [pyStartsWith_fmtLine, hTop kv (List.mem_cons_self kv rest)]; simp
    rw [List.map_cons, List.filter_cons, if_neg hline]
    exact ih fun x hx => hTop x (List.mem_cons_of_mem kv hx)

lemma words_filter_hyps (hs : List (List (String × JVal)))
    (hKeys : ∀ h ∈ hs, ∀ kv ∈ h,
      pyStartsWith kv.1 "utterance" = true → kv.1 = "utterance")
    (hVals : ∀ h ∈ hs, ∀ kv ∈ h, kv.1 = "utterance" →
      ':' ∉ kv.2.render.data ∧ pyLStrip kv.2.render = kv.2.render) :
    (((hs.flatMap fun h => h.map fun kv => fmtLine kv.1 kv.2).filter
        fun line => pyStartsWith line "utterance").map wordOfLine)
      = ((hs.flatMap fun h => h.filter fun kv => kv.1 = "utterance").map
          fun kv => kv.2.render) := by
  induction hs with
  | nil => rfl
  | cons h rest ih =>
    have ihr := ih (fun x hx => hKeys x (List.mem_cons_of_mem h hx))
      (fun x hx => hVals x (List.mem_cons_of_mem h hx))
    simp only [List.flatMap_cons, List.filter_append, List.map_append]
    rw [words_filter_hyp h (hKeys h (List.mem_cons_self h rest))
      (hVals h (List.mem_cons_self h rest)), ihr]

/-- Under the inbound-interface assumptions (hypothesis keys beginning with
`"utterance"` are exactly `"utterance"`, utterance values are colon-free
and have no leading whitespace, no other top-level key begins with
`"utterance"`), `words` is the ordered sequence of utterance values in
encounter order. -/
lemma wordsOf_general (p : Payload)
    (hKeys : ∀ h ∈ p.hypotheses, ∀ kv ∈ h,
      pyStartsWith kv.1 "utterance" = true → kv.1 = "utterance")
    (hVals : ∀ h ∈ p.hypotheses, ∀ kv ∈ h, kv.1 = "utterance" →
      ':' ∉ kv.2.render.data ∧ pyLStrip kv.2.render = kv.2.render)
    (hTop : ∀ kv ∈ p.topPairs, pyStartsWith kv.1 "utterance" = false) :
    wordsOf p = specUtteranceValues p := by
  unfold wordsOf reportLines specUtteranceValues
  rw [List.filter_append, words_filter_top p.topPairs hTop, List.append_nil]
  exact words_filter_hyps p.hypotheses hKeys hVals

end GoogleSpeech

namespace GoogleSpeech

/-- The payload used to exhibit colon truncation: one hypothesis whose
utterance value contains a colon. -/
def colonPayload : Payload :=
  { status := 0
    hypotheses := [[("utterance", .jstr "one: two")]]
    topPairs := [("status", .jnum "0" 0)] }

end GoogleSpeech

/-- C4: parsing a payload with hypotheses
`[("utterance","hello world"),("confidence",0.87)]` and status 0 yields
`words = ("hello world",)`, `word = "hello world"`, `confidence = 0.87`,
`status = 0`; and in general (hypothesis keys beginning with "utterance"
are exactly "utterance", utterance values colon-free without leading
whitespace, no other top-level key beginning with "utterance") `words` is
the ordered sequence of utterance values in encounter order and `word` is
its first element, or `""` when the sequence is empty. -/
theorem GoogleSpeech.unpack_words_roundtrip (s s' : GoogleSpeech.TaskState)
    (p : GoogleSpeech.Payload)
    (hu : GoogleSpeech.unpackRaw s p = some s')
    (hKeys : ∀ h ∈ p.hypotheses, ∀ kv ∈ h,
      GoogleSpeech.pyStartsWith kv.1 "utterance" = true → kv.1 = "utterance")
    (hVals : ∀ h ∈ p.hypotheses, ∀ kv ∈ h, kv.1 = "utterance" →
      ':' ∉ kv.2.render.data ∧ GoogleSpeech.pyLStrip kv.2.render = kv.2.render)
    (hTop : ∀ kv ∈ p.topPairs,
      GoogleSpeech.pyStartsWith kv.1 "utterance" = false) :
    (s'.words = GoogleSpeech.specUtteranceValues p ∧
      s'.word = (GoogleSpeech.specUtteranceValues p).headD "") ∧
    ((GoogleSpeech.unpackRaw GoogleSpeech.initTask
        GoogleSpeech.samplePayload).map
          (fun t => (t.words, t.word, t.confidence, t.status)) =
      some (["hello world"], "hello world", some (87/100), some 0)) := by
  constructor
  · have hw := GoogleSpeech.wordsOf_general p hKeys hVals hTop
    cases hconf : GoogleSpeech.confidenceOf s.confidence p with
    | none =>
      rw [GoogleSpeech.unpackRaw, hconf] at hu
      exact Option.noConfusion hu
    | some conf =>
      rw [GoogleSpeech.unpackRaw, hconf] at hu
      have hu2 := Option.some.inj hu
      rw [← hu2]
      exact ⟨hw, by rw [hw]⟩
  · rfl

/-- Witness for C4 at the sample payload. -/
theorem GoogleSpeech.unpack_words_roundtrip_witness :
    ((GoogleSpeech.unpackRaw GoogleSpeech.initTask
        GoogleSpeech.samplePayload).getD GoogleSpeech.initTask).words =
      GoogleSpeech.specUtteranceValues GoogleSpeech.samplePayload ∧
    ((GoogleSpeech.unpackRaw GoogleSpeech.initTask
        GoogleSpeech.samplePayload).getD GoogleSpeech.initTask).word =
      (GoogleSpeech.specUtteranceValues GoogleSpeech.samplePayload).headD "" :=
  (GoogleSpeech.unpack_words_roundtrip GoogleSpeech.initTask
    ((GoogleSpeech.unpackRaw GoogleSpeech.initTask
      GoogleSpeech.samplePayload).getD GoogleSpeech.initTask)
    GoogleSpeech.samplePayload rfl (by decide) (by decide) (by decide)).1

/-- C10: because `words` entries come from splitting report lines on
`':'`, an utterance value `a ++ ":" ++ b` is truncated to `a` (its text
before the first colon) in `words`, while the full value still appears on
its line of the detailed report. Also exhibited concretely on
`"one: two"`. -/
theorem GoogleSpeech.utterance_colon_truncated (p : GoogleSpeech.Payload)
    (v a b : String)
    (hv : v.data = a.data ++ ':' :: b.data)
    (ha : ':' ∉ a.data)
    (ha2 : GoogleSpeech.pyLStrip a = a) :
    (GoogleSpeech.wordOfLine (GoogleSpeech.fmtLine "utterance" (.jstr v)) = a) ∧
    (∀ h ∈ p.hypotheses, ("utterance", GoogleSpeech.JVal.jstr v) ∈ h →
      GoogleSpeech.fmtLine "utterance" (.jstr v) ∈ GoogleSpeech.reportLines p) ∧
    (GoogleSpeech.detailedOf p =
      String.intercalate "\n" (GoogleSpeech.reportLines p)) ∧
    (GoogleSpeech.wordsOf GoogleSpeech.colonPayload = ["one"] ∧
      (GoogleSpeech.unpackRaw GoogleSpeech.initTask
          GoogleSpeech.colonPayload).map (fun t => (t.word, t.detailed)) =
        some ("one", "utterance  : one: two\nstatus     : 0")) := by
  refine ⟨?_, ?_, rfl, by decide, rfl⟩
  · rw [GoogleSpeech.wordOfLine_fmtLine_utterance]
    show GoogleSpeech.pyLStrip (String.mk (v.data.takeWhile (· != ':'))) = a
    rw [hv, GoogleSpeech.takeWhile_ne_colon_append a.data b.data ha]
    exact ha2
  · intro h hh hmem
    unfold GoogleSpeech.reportLines
    apply List.mem_append_left
    rw [List.mem_flatMap]
    exact ⟨h, hh, List.mem_map_of_mem _ hmem⟩

/-- Witness for C10 at the concrete colon payload. -/
theorem GoogleSpeech.utterance_colon_truncated_witness :
    GoogleSpeech.wordOfLine
      (GoogleSpeech.fmtLine "utterance" (.jstr "one: two")) = "one" :=
  (GoogleSpeech.utterance_colon_truncated GoogleSpeech.colonPayload
    "one: two" "one" " two" (by decide) (by decide) (by decide)).1

namespace GoogleSpeech

lemma netPhase_ok0 (s : TaskState) (a : Nat → Except String Payload)
    (p : Payload) (h : a 0 = .ok p) :
    netPhase s a = ({ s with raw := some p }, []) := by
  simp [netPhase, h]

lemma netPhase_retry_ok (s : TaskState) (a : Nat → Except String Payload)
    (p : Payload) (m1 : String) (h0 : a 0 = .error m1) (h1 : a 1 = .ok p) :
    netPhase s a = ({ s with raw := some p }, []) := by
  simp [netPhase, h0, h1]

lemma netPhase_both_fail (s : TaskState) (a : Nat → Except String Payload)
    (m1 m2 : String) (h0 : a 0 = .error m1) (h1 : a 1 = .error m2) :
    netPhase s a = ({ s with running := false, errMsg := some m2 }, [m2]) := by
  simp [netPhase, h0, h1]

lemma runFinish_not_running (s : TaskState) (tEnd : ℚ) (h : s.running = false) :
    runFinish s tEnd = some { s with
      duration := some (tEnd - s.t0.getD 0)
      timedout := true
      completed := true } := by
  simp [runFinish, h]

lemma runFinish_running_unpack (s : TaskState) (tEnd : ℚ) (p : Payload)
    (conf : Option ℚ) (hr : s.running = true) (hraw : s.raw = some p)
    (hconf : confidenceOf s.confidence p = some conf) :
    runFinish s tEnd = some { s with
      duration := some (tEnd - s.t0.getD 0)
      json := some p
      status := some p.status
      confidence := conf
      conf := conf
      detailed := detailedOf p
      words := wordsOf p
      word := (wordsOf p).headD ""
      running := false
      timedout := false
      completed := true } := by
  simp [runFinish, hr, hraw, unpackRaw, hconf]

lemma runTask_eq (s : TaskState) (a : Nat → Except String Payload) (d : Bool)
    (t0 t1 : ℚ) :
    runTask s a d t0 t1 =
      (runFinish
        (if d then stopTask (netPhase (runStart s t0) a).1
         else (netPhase (runStart s t0) a).1) t1).map
        (fun s3 => (s3, (netPhase (runStart s t0) a).2)) := by
  unfold runTask
  rcases h : netPhase (runStart s t0) a with ⟨s1, log⟩
  simp [h]

end GoogleSpeech

namespace GoogleSpeech

/-- A network oracle whose first attempt fails and whose retry succeeds. -/
def failThenOk : Nat → Except String Payload :=
  fun n => if n = 0 then .error "boom" else .ok samplePayload

/-- A network oracle whose first two attempts both fail. -/
def bothFail : Nat → Except String Payload :=
  fun n => if n = 0 then .error "err1" else .error "err2"

end GoogleSpeech

/-- C1: on a transport failure `run()` retries exactly once immediately:
with first attempt failing and the retry succeeding the task parses the
payload and ends Succeeded; with both attempts failing the failure message
is recorded, `running` is cleared, and the task ends in the
Failed/TimedOut terminal family, never Succeeded, with `run()` returning
normally (the exception is absorbed into task state); and the outcome
consults no attempt beyond the first two. -/
theorem GoogleSpeech.run_transport_retry_policy
    (a b c : Nat → Except String GoogleSpeech.Payload)
    (p : GoogleSpeech.Payload) (m1 m2 m3 : String) (tStart tEnd : ℚ)
    (hconf : GoogleSpeech.confidenceOf none p ≠ none)
    (ha0 : a 0 = .error m1) (ha1 : a 1 = .ok p)
    (hb0 : b 0 = .error m2) (hb1 : b 1 = .error m3) :
    (∃ s', GoogleSpeech.runTask GoogleSpeech.initTask a false tStart tEnd =
        some (s', []) ∧
      GoogleSpeech.classify s' = .succeeded ∧ s'.running = false ∧
      s'.timedout = false ∧ s'.json = some p) ∧
    (∃ s', GoogleSpeech.runTask GoogleSpeech.initTask b false tStart tEnd =
        some (s', [m3]) ∧
      s'.running = false ∧ s'.timedout = true ∧ s'.errMsg = some m3 ∧
      GoogleSpeech.classify s' = .failed ∧
      GoogleSpeech.classify s' ≠ .succeeded ∧ s'.json = none ∧ s'.word = "") ∧
    (∀ (d : Bool) (s0 : GoogleSpeech.TaskState),
      c 0 = a 0 → c 1 = a 1 →
      GoogleSpeech.runTask s0 c d tStart tEnd =
        GoogleSpeech.runTask s0 a d tStart tEnd) := by
  obtain ⟨conf, hc⟩ := Option.ne_none_iff_exists'.mp hconf
  refine ⟨?_, ?_, ?_⟩
  · rw [GoogleSpeech.runTask_eq,
      GoogleSpeech.netPhase_retry_ok _ a p m1 ha0 ha1]
    simp only [if_false, Bool.false_eq_true]
    rw [GoogleSpeech.runFinish_running_unpack _ tEnd p conf rfl rfl hc]
    exact ⟨_, rfl, rfl, rfl, rfl, rfl⟩
  · rw [GoogleSpeech.runTask_eq,
      GoogleSpeech.netPhase_both_fail _ b m2 m3 hb0 hb1]
    simp only [if_false, Bool.false_eq_true]
    rw [GoogleSpeech.runFinish_not_running _ tEnd rfl]
    refine ⟨_, rfl, rfl, rfl, rfl, rfl, ?_, rfl, rfl⟩
    intro hcl
    exact GoogleSpeech.Phase.noConfusion (hcl.symm.trans rfl)
  · intro d s0 hc0 hc1
    rw [GoogleSpeech.runTask_eq, GoogleSpeech.runTask_eq]
    have hnet : GoogleSpeech.netPhase (GoogleSpeech.runStart s0 tStart) c =
        GoogleSpeech.netPhase (GoogleSpeech.runStart s0 tStart) a := by
      unfold GoogleSpeech.netPhase
      rw [hc0, hc1]
    rw [hnet]

/-- Witness for C1 with concrete oracles (fail-then-ok and fail-fail). -/
theorem GoogleSpeech.run_transport_retry_policy_witness :
    (∃ s', GoogleSpeech.runTask GoogleSpeech.initTask GoogleSpeech.failThenOk
        false 0 1 = some (s', []) ∧
      GoogleSpeech.classify s' = .succeeded ∧ s'.running = false ∧
      s'.timedout = false ∧ s'.json = some GoogleSpeech.samplePayload) ∧
    (∃ s', GoogleSpeech.runTask GoogleSpeech.initTask GoogleSpeech.bothFail
        false 0 1 = some (s', ["err2"]) ∧
      s'.running = false ∧ s'.timedout = true ∧ s'.errMsg = some "err2" ∧
      GoogleSpeech.classify s' = .failed ∧
      GoogleSpeech.classify s' ≠ .succeeded ∧ s'.json = none ∧ s'.word = "") ∧
    (∀ (d : Bool) (s0 : GoogleSpeech.TaskState),
      GoogleSpeech.failThenOk 0 = GoogleSpeech.failThenOk 0 →
      GoogleSpeech.failThenOk 1 = GoogleSpeech.failThenOk 1 →
      GoogleSpeech.runTask s0 GoogleSpeech.failThenOk d 0 1 =
        GoogleSpeech.runTask s0 GoogleSpeech.failThenOk d 0 1) :=
  GoogleSpeech.run_transport_retry_policy GoogleSpeech.failThenOk
    GoogleSpeech.bothFail GoogleSpeech.failThenOk GoogleSpeech.samplePayload
    "boom" "err1" "err2" 0 1 (by decide) rfl rfl rfl rfl

/-- C2: if `stop()` is invoked before the network call returns, a later
successful return leaves the task TimedOut (`timedout = true`) and the
payload is not parsed: `word`, `words`, `confidence` keep their
empty/None defaults and neither the parsed json nor a status is exposed,
even though the raw response was received. -/
theorem GoogleSpeech.stop_before_success_timedout
    (a : Nat → Except String GoogleSpeech.Payload)
    (p : GoogleSpeech.Payload) (tStart tEnd : ℚ) (ha0 : a 0 = .ok p) :
    ∃ s', GoogleSpeech.runTask GoogleSpeech.initTask a true tStart tEnd =
        some (s', []) ∧
      s'.timedout = true ∧ GoogleSpeech.classify s' = .timedOut ∧
      s'.raw = some p ∧ s'.word = "" ∧ s'.words = [] ∧
      s'.confidence = none ∧ s'.json = none ∧ s'.status = none := by
  rw [GoogleSpeech.runTask_eq, GoogleSpeech.netPhase_ok0 _ a p ha0]
  simp only [if_true]
  rw [GoogleSpeech.runFinish_not_running _ tEnd rfl]
  exact ⟨_, rfl, rfl, rfl, rfl, rfl, rfl, rfl, rfl, rfl⟩

/-- Witness for C2: a stop during a successful call on the sample payload. -/
theorem GoogleSpeech.stop_before_success_timedout_witness :
    ∃ s', GoogleSpeech.runTask GoogleSpeech.initTask
        (fun _ => .ok GoogleSpeech.samplePayload) true 0 1 = some (s', []) ∧
      s'.timedout = true ∧ GoogleSpeech.classify s' = .timedOut ∧
      s'.raw = some GoogleSpeech.samplePayload ∧ s'.word = "" ∧
      s'.words = [] ∧ s'.confidence = none ∧ s'.json = none ∧
      s'.status = none :=
  GoogleSpeech.stop_before_success_timedout
    (fun _ => .ok GoogleSpeech.samplePayload) GoogleSpeech.samplePayload
    0 1 rfl

/-- C3 counterexample: `getResponse` stamps 408 on a still-running task but
never calls `stop()`, so when the network call later succeeds the tail of
`run()` unpacks the payload and overwrites `status` with the payload's
status (0 here) and populates the result fields: the 408 does not remain
in the caller's already-returned view (the returned handle is the same
object). -/
theorem GoogleSpeech.getResponse_stamp_not_preserved_cex :
    (GoogleSpeech.stampTimeout
        (GoogleSpeech.runStart GoogleSpeech.initTask 0)).status = some 408 ∧
    (GoogleSpeech.runFinish
        (GoogleSpeech.netPhase
          (GoogleSpeech.stampTimeout
            (GoogleSpeech.runStart GoogleSpeech.initTask 0))
          (fun _ => .ok GoogleSpeech.samplePayload)).1 1).map
        (fun s => (s.status, s.words)) = some (some 0, ["hello world"]) ∧
    some (0 : Int) ≠ some (408 : Int) :=
  ⟨rfl, rfl, by decide⟩

/-- C3 (amended): the timeout branch of `getResponse` sets `status` to the
sentinel 408 and alters no other field; but since `getResponse` does not
stop the task, a later successful completion of the network call parses
the payload and overwrites `status` with the payload's status, also
populating the result fields, so the stamped 408 does not persist. -/
theorem GoogleSpeech.getResponse_stamp_then_overwrite
    (s : GoogleSpeech.TaskState) (a : Nat → Except String GoogleSpeech.Payload)
    (p : GoogleSpeech.Payload) (conf : Option ℚ) (tEnd : ℚ)
    (hr : s.running = true) (ha0 : a 0 = .ok p)
    (hc : GoogleSpeech.confidenceOf s.confidence p = some conf) :
    ((GoogleSpeech.stampTimeout s).status = some 408 ∧
      (GoogleSpeech.stampTimeout s).t0 = s.t0 ∧
      (GoogleSpeech.stampTimeout s).duration = s.duration ∧
      (GoogleSpeech.stampTimeout s).running = s.running ∧
      (GoogleSpeech.stampTimeout s).timedout = s.timedout ∧
      (GoogleSpeech.stampTimeout s).started = s.started ∧
      (GoogleSpeech.stampTimeout s).confidence = s.confidence ∧
      (GoogleSpeech.stampTimeout s).json = s.json ∧
      (GoogleSpeech.stampTimeout s).raw = s.raw ∧
      (GoogleSpeech.stampTimeout s).word = s.word ∧
      (GoogleSpeech.stampTimeout s).words = s.words ∧
      (GoogleSpeech.stampTimeout s).detailed = s.detailed ∧
      (GoogleSpeech.stampTimeout s).errMsg = s.errMsg ∧
      (GoogleSpeech.stampTimeout s).completed = s.completed) ∧
    (∃ s', GoogleSpeech.runFinish
        (GoogleSpeech.netPhase (GoogleSpeech.stampTimeout s) a).1 tEnd =
          some s' ∧
      s'.status = some p.status ∧ s'.words = GoogleSpeech.wordsOf p ∧
      s'.json = some p) := by
  have hst : GoogleSpeech.stampTimeout s = { s with status := some 408 } := by
    rw [GoogleSpeech.stampTimeout, if_pos hr]
  constructor
  · rw [hst]
    exact ⟨rfl, rfl, rfl, rfl, rfl, rfl, rfl, rfl, rfl, rfl, rfl, rfl, rfl, rfl⟩
  · have hnet := GoogleSpeech.netPhase_ok0 (GoogleSpeech.stampTimeout s) a p ha0
    have h1 : (GoogleSpeech.netPhase (GoogleSpeech.stampTimeout s) a).1 =
        { GoogleSpeech.stampTimeout s with raw := some p } := by rw [hnet]
    have hrun2 : ({ GoogleSpeech.stampTimeout s with
        raw := some p } : GoogleSpeech.TaskState).running = true := by
      show (GoogleSpeech.stampTimeout s).running = true
      rw [hst]
      exact hr
    have hconf2 : GoogleSpeech.confidenceOf
        ({ GoogleSpeech.stampTimeout s with
          raw := some p } : GoogleSpeech.TaskState).confidence p = some conf := by
      show GoogleSpeech.confidenceOf (GoogleSpeech.stampTimeout s).confidence p =
        some conf
      rw [hst]
      exact hc
    rw [h1, GoogleSpeech.runFinish_running_unpack _ tEnd p conf hrun2 rfl hconf2]
    exact ⟨_, rfl, rfl, rfl, rfl⟩

/-- Witness for C3's amended theorem at a concrete running task and
payload. -/
theorem GoogleSpeech.getResponse_stamp_then_overwrite_witness :
    (GoogleSpeech.stampTimeout
        (GoogleSpeech.runStart GoogleSpeech.initTask 0)).status = some 408 ∧
    (∃ s', GoogleSpeech.runFinish
        (GoogleSpeech.netPhase
          (GoogleSpeech.stampTimeout (GoogleSpeech.runStart GoogleSpeech.initTask 0))
          (fun _ => .ok GoogleSpeech.samplePayload)).1 1 = some s' ∧
      s'.status = some GoogleSpeech.samplePayload.status ∧
      s'.words = GoogleSpeech.wordsOf GoogleSpeech.samplePayload ∧
      s'.json = some GoogleSpeech.samplePayload) :=
  ⟨(GoogleSpeech.getResponse_stamp_then_overwrite
      (GoogleSpeech.runStart GoogleSpeech.initTask 0)
      (fun _ => .ok GoogleSpeech.samplePayload) GoogleSpeech.samplePayload
      (some (87/100)) 1 rfl rfl rfl).1.1,
    (GoogleSpeech.getResponse_stamp_then_overwrite
      (GoogleSpeech.runStart GoogleSpeech.initTask 0)
      (fun _ => .ok GoogleSpeech.samplePayload) GoogleSpeech.samplePayload
      (some (87/100)) 1 rfl rfl rfl).2⟩

namespace GoogleSpeech

lemma runFinish_running_noraw (s : TaskState) (tEnd : ℚ)
    (h1 : s.running = true) (h2 : s.raw = none) :
    runFinish s tEnd = none := by
  simp [runFinish, h1, h2]

lemma runFinish_unpack_fail (s : TaskState) (tEnd : ℚ) (p : Payload)
    (h1 : s.running = true) (h2 : s.raw = some p)
    (h3 : confidenceOf s.confidence p = none) :
    runFinish s tEnd = none := by
  simp [runFinish, h1, h2, unpackRaw, h3]

/-- Any state returned by the tail of `run()` is completed, not running,
keeps `started`, and either timed out with `json` untouched or finished
clean with `json` populated. -/
lemma runFinish_some_fields (s1 s' : TaskState) (tEnd : ℚ)
    (h : runFinish s1 tEnd = some s') :
    s'.completed = true ∧ s'.running = false ∧ s'.started = s1.started ∧
      ((s'.timedout = true ∧ s'.json = s1.json) ∨
        (s'.timedout = false ∧ s'.json.isSome = true)) := by
  cases hr : s1.running with
  | false =>
    rw [runFinish_not_running s1 tEnd hr] at h
    obtain rfl := Option.some.inj h
    exact ⟨rfl, hr, rfl, Or.inl ⟨rfl, rfl⟩⟩
  | true =>
    cases hraw : s1.raw with
    | none =>
      rw [runFinish_running_noraw s1 tEnd hr hraw] at h
      exact Option.noConfusion h
    | some p =>
      cases hconf : confidenceOf s1.confidence p with
      | none =>
        rw [runFinish_unpack_fail s1 tEnd p hr hraw hconf] at h
        exact Option.noConfusion h
      | some conf =>
        rw [runFinish_running_unpack s1 tEnd p conf hr hraw hconf] at h
        obtain rfl := Option.some.inj h
        exact ⟨rfl, rfl, rfl, Or.inr ⟨rfl, rfl⟩⟩

/-- The network phase only touches `raw`, `running` and `errMsg`. -/
lemma netPhase_preserve (s : TaskState) (a : Nat → Except String Payload) :
    (netPhase s a).1.started = s.started ∧
    (netPhase s a).1.completed = s.completed ∧
    (netPhase s a).1.json = s.json ∧
    (netPhase s a).1.timedout = s.timedout := by
  cases h0 : a 0 with
  | ok p => simp [netPhase, h0]
  | error m =>
    cases h1 : a 1 with
    | ok p => simp [netPhase, h0, h1]
    | error m2 => simp [netPhase, h0, h1]

/-- The state invariant maintained along every reachable execution:
completion implies the task started and the running flag is down; before
completion nothing is timed out and no parse is exposed; the parsed json
is present exactly on a clean completion. -/
def Inv (s : TaskState) : Prop :=
  (s.completed = true → s.started = true ∧ s.running = false) ∧
  (s.completed = false → s.timedout = false ∧ s.json = none) ∧
  (s.json.isSome = true ↔ s.completed = true ∧ s.timedout = false)

lemma reach_inv (s : TaskState) (h : Reach s) : Inv s := by
  induction h with
  | init => exact ⟨by decide, by decide, by decide⟩
  | step hr hs ih =>
    rename_i sA sB
    cases hs with
    | start t hstart =>
      have hcomp : sA.completed = false := by
        cases hc : sA.completed with
        | false => rfl
        | true =>
          have hst := (ih.1 hc).1
          rw [hstart] at hst
          exact Bool.noConfusion hst
      obtain ⟨ht, hj⟩ := ih.2.1 hcomp
      refine ⟨?_, ?_, ?_⟩
      · intro hcf
        rw [show (runStart sA t).completed = sA.completed from rfl, hcomp] at hcf
        exact Bool.noConfusion hcf
      · intro _
        exact ⟨ht, hj⟩
      · show sA.json.isSome = true ↔ sA.completed = true ∧ sA.timedout = false
        rw [hj, hcomp]
        simp
    | complete s2 a tEnd hstart hncomp hfin =>
      have hpre := netPhase_preserve sA a
      obtain ⟨ht, hj⟩ := ih.2.1 hncomp
      obtain ⟨hc', hr', hs', hor⟩ := runFinish_some_fields _ sB tEnd hfin
      refine ⟨?_, ?_, ?_⟩
      · intro _
        rw [hs', hpre.1]
        exact ⟨hstart, hr'⟩
      · intro hcf
        rw [hc'] at hcf
        exact Bool.noConfusion hcf
      · cases hor with
        | inl h2 =>
          obtain ⟨hto, hjs⟩ := h2
          rw [hjs, hpre.2.2.1, hj, hto]
          simp
        | inr h2 =>
          obtain ⟨hto, hjs⟩ := h2
          rw [hjs, hc', hto]
          simp
    | stop =>
      exact ⟨fun hc => ⟨(ih.1 hc).1, rfl⟩, ih.2.1, ih.2.2⟩

/-- A terminal classification forces the started/completed flags. -/
lemma classify_terminal_flags (s : TaskState)
    (h : (classify s).terminal = true) :
    s.started = true ∧ s.completed = true := by
  by_cases h1 : s.started = false
  · rw [classify, if_pos h1] at h
    exact Bool.noConfusion h
  · by_cases h2 : s.completed = false
    · rw [classify, if_neg h1, if_pos h2] at h
      exact Bool.noConfusion h
    · exact ⟨Bool.not_eq_false _ ▸ Bool.of_not_eq_false h1,
        Bool.of_not_eq_false h2⟩

end GoogleSpeech

namespace GoogleSpeech

lemma classify_succeeded_iff (s : TaskState) :
    classify s = .succeeded ↔
      (s.started = true ∧ s.completed = true ∧ s.timedout = false) := by
  unfold classify
  by_cases h1 : s.started = false
  · simp [h1]
  · have h1t : s.started = true := Bool.of_not_eq_false h1
    by_cases h2 : s.completed = false
    · simp [h1t, h2]
    · have h2t : s.completed = true := Bool.of_not_eq_false h2
      by_cases h3 : s.timedout = true
      · cases herr : s.errMsg.isSome <;> simp [h1t, h2t, h3, herr]
      · have h3f : s.timedout = false := Bool.of_not_eq_true h3
        simp [h1t, h2t, h3f]

end GoogleSpeech

/-- C6: at every observation point a reachable task is in exactly one of
the five lifecycle phases; no step (run starting or completing, `stop()`;
`elapsed()` mutates nothing) leaves a terminal phase; and the parsed
result (`json`) is populated iff the phase is Succeeded. -/
theorem GoogleSpeech.task_state_machine (s s' : GoogleSpeech.TaskState)
    (hreach : GoogleSpeech.Reach s) (hstep : GoogleSpeech.Step s s') :
    (∃! ph : GoogleSpeech.Phase, GoogleSpeech.classify s = ph) ∧
    ((GoogleSpeech.classify s).terminal = true →
      GoogleSpeech.classify s' = GoogleSpeech.classify s) ∧
    (s.json.isSome = true ↔ GoogleSpeech.classify s = .succeeded) := by
  refine ⟨⟨GoogleSpeech.classify s, rfl, fun y hy => hy.symm⟩, ?_, ?_⟩
  · intro hterm
    obtain ⟨hst, hcomp⟩ := GoogleSpeech.classify_terminal_flags s hterm
    cases hstep with
    | start t hstart =>
      rw [hst] at hstart
      exact Bool.noConfusion hstart
    | complete s2 a tEnd hstart hncomp hfin =>
      rw [hcomp] at hncomp
      exact Bool.noConfusion hncomp
    | stop => rfl
  · have hinv := GoogleSpeech.reach_inv s hreach
    rw [GoogleSpeech.classify_succeeded_iff]
    constructor
    · intro hsome
      obtain ⟨hcomp, hto⟩ := hinv.2.2.mp hsome
      exact ⟨(hinv.1 hcomp).1, hcomp, hto⟩
    · intro ⟨_, hcomp, hto⟩
      exact hinv.2.2.mpr ⟨hcomp, hto⟩

/-- Witness for C6 at the freshly created task and a `stop()` step. -/
theorem GoogleSpeech.task_state_machine_witness :
    (∃! ph : GoogleSpeech.Phase,
      GoogleSpeech.classify GoogleSpeech.initTask = ph) ∧
    ((GoogleSpeech.classify GoogleSpeech.initTask).terminal = true →
      GoogleSpeech.classify (GoogleSpeech.stopTask GoogleSpeech.initTask) =
        GoogleSpeech.classify GoogleSpeech.initTask) ∧
    (GoogleSpeech.initTask.json.isSome = true ↔
      GoogleSpeech.classify GoogleSpeech.initTask = .succeeded) :=
  GoogleSpeech.task_state_machine GoogleSpeech.initTask
    (GoogleSpeech.stopTask GoogleSpeech.initTask) GoogleSpeech.Reach.init
    (GoogleSpeech.Step.stop GoogleSpeech.initTask)

namespace GoogleSpeech

/-- A task state that completed cleanly: started at time 0, network call
succeeded with the sample payload, finished at time 1. -/
def sampleDone : TaskState :=
  (runFinish (netPhase (runStart initTask 0)
    (fun _ => .ok samplePayload)).1 1).getD initTask

end GoogleSpeech

/-- C5: `elapsed()` returns null before `run()` has begun; while the
running flag is up it returns the live wall-clock delta since the recorded
start time, non-decreasing in the clock; once the task is terminal it
returns the frozen duration, the same value on every subsequent call. -/
theorem GoogleSpeech.elapsed_lifecycle
    (s0 s1 s2 : GoogleSpeech.TaskState) (now n1 n2 : ℚ) (hn : n1 ≤ n2)
    (h0 : s0.started = false)
    (h1r : s1.running = true) (h1s : s1.started = true)
    (hreach : GoogleSpeech.Reach s2)
    (h2 : (GoogleSpeech.classify s2).terminal = true) :
    (GoogleSpeech.elapsed s0 now = none) ∧
    (GoogleSpeech.elapsed s1 n1 = some (n1 - s1.t0.getD 0) ∧
      GoogleSpeech.elapsed s1 n2 = some (n2 - s1.t0.getD 0) ∧
      n1 - s1.t0.getD 0 ≤ n2 - s1.t0.getD 0) ∧
    (GoogleSpeech.elapsed s2 n1 = s2.duration ∧
      GoogleSpeech.elapsed s2 n1 = GoogleSpeech.elapsed s2 n2) := by
  obtain ⟨hst, hcomp⟩ := GoogleSpeech.classify_terminal_flags s2 h2
  have hrun : s2.running = false :=
    ((GoogleSpeech.reach_inv s2 hreach).1 hcomp).2
  refine ⟨by simp [GoogleSpeech.elapsed, h0],
    ⟨?_, ?_, by linarith⟩, ?_, ?_⟩
  · simp [GoogleSpeech.elapsed, h1r, h1s]
  · simp [GoogleSpeech.elapsed, h1r, h1s]
  · simp [GoogleSpeech.elapsed, hst, hrun]
  · simp [GoogleSpeech.elapsed, hst, hrun]

/-- Witness for C5: the fresh task, a just-started task, and a cleanly
completed task. -/
theorem GoogleSpeech.elapsed_lifecycle_witness :
    (GoogleSpeech.elapsed GoogleSpeech.initTask 5 = none) ∧
    (GoogleSpeech.elapsed (GoogleSpeech.runStart GoogleSpeech.initTask 0) 1 =
        some (1 - (GoogleSpeech.runStart GoogleSpeech.initTask 0).t0.getD 0) ∧
      GoogleSpeech.elapsed (GoogleSpeech.runStart GoogleSpeech.initTask 0) 2 =
        some (2 - (GoogleSpeech.runStart GoogleSpeech.initTask 0).t0.getD 0) ∧
      1 - (GoogleSpeech.runStart GoogleSpeech.initTask 0).t0.getD 0 ≤
        2 - (GoogleSpeech.runStart GoogleSpeech.initTask 0).t0.getD 0) ∧
    (GoogleSpeech.elapsed GoogleSpeech.sampleDone 1 =
        GoogleSpeech.sampleDone.duration ∧
      GoogleSpeech.elapsed GoogleSpeech.sampleDone 1 =
        GoogleSpeech.elapsed GoogleSpeech.sampleDone 2) :=
  GoogleSpeech.elapsed_lifecycle GoogleSpeech.initTask
    (GoogleSpeech.runStart GoogleSpeech.initTask 0) GoogleSpeech.sampleDone
    5 1 2 (by norm_num) rfl rfl rfl
    (GoogleSpeech.Reach.step
      (GoogleSpeech.Reach.step GoogleSpeech.Reach.init
        (GoogleSpeech.Step.start GoogleSpeech.initTask 0 rfl))
      (GoogleSpeech.Step.complete (GoogleSpeech.runStart GoogleSpeech.initTask 0)
        GoogleSpeech.sampleDone (fun _ => .ok GoogleSpeech.samplePayload) 1
        rfl rfl rfl))
    rfl

namespace GoogleSpeech

lemma transcodeFromFuel_none_of_false (g : Nat → Bool) (fuel : Nat) :
    ∀ i, (∀ j, i ≤ j → j < i + fuel → g j = false) →
      transcodeFromFuel g fuel i = none := by
  induction fuel with
  | zero => intro i _; rfl
  | succ n ih =>
    intro i h
    have hi : g i = false := h i (le_refl i) (by omega)
    rw [transcodeFromFuel, hi]
    simp only [Bool.false_eq_true, if_false]
    exact ih (i + 1) fun j h1 h2 => h j (by omega) (by omega)

lemma transcodeFromFuel_finds (g : Nat → Bool) (fuel : Nat) :
    ∀ i n, i ≤ n → n < i + fuel → g n = true →
      ∃ k, transcodeFromFuel g fuel i = some k ∧ k ≤ n + 1 ∧ i < k := by
  induction fuel with
  | zero => intro i n h1 h2 _; omega
  | succ m ih =>
    intro i n h1 h2 hn
    cases hi : g i with
    | true =>
      refine ⟨i + 1, ?_, by omega, by omega⟩
      rw [transcodeFromFuel, hi, if_pos rfl]
    | false =>
      have hne : i ≠ n := fun e => by rw [e, hn] at hi; exact Bool.noConfusion hi
      obtain ⟨k, hk, hk2, hk3⟩ := ih (i + 1) n (by omega) (by omega) hn
      refine ⟨k, ?_, hk2, by omega⟩
      rw [transcodeFromFuel, hi]
      simpa using hk

lemma transcodeFromFuel_some_appears (g : Nat → Bool) (fuel : Nat) :
    ∀ i k, transcodeFromFuel g fuel i = some k → i < k ∧ g (k - 1) = true := by
  induction fuel with
  | zero => intro i k h; exact Option.noConfusion h
  | succ m ih =>
    intro i k h
    cases hi : g i with
    | true =>
      rw [transcodeFromFuel, hi, if_pos rfl] at h
      obtain rfl := Option.some.inj h
      exact ⟨by omega, by simpa using hi⟩
    | false =>
      rw [transcodeFromFuel, hi] at h
      simp only [Bool.false_eq_true, if_false] at h
      obtain ⟨h1, h2⟩ := ih (i + 1) k h
      exact ⟨by omega, h2⟩

/-- The environment used to exhibit the unbounded transcode loop: the file
exists, flac is installed, but the encoder never produces the output. -/
def envEncoderStuck : Env :=
  { isfile := fun _ => true, flacPathExists := true,
    tmpAppears := fun _ => false, readResult := some "AUDIO" }

/-- An environment in which every file exists and reads succeed. -/
def envAllFiles : Env :=
  { isfile := fun _ => true, flacPathExists := true,
    tmpAppears := fun _ => true, readResult := some "AUDIO" }

/-- An environment in which no file exists. -/
def envNoFiles : Env :=
  { isfile := fun _ => false, flacPathExists := true,
    tmpAppears := fun _ => true, readResult := some "AUDIO" }

/-- The default option bundle of `_parse_options`. -/
def gsOptionsDefault : Options :=
  { lang := "en-US", samplingrate := 16000, timeout := 10, pro_filter := 2,
    quiet := true }

/-- Encoder output that appears after the invocation numbered 2. -/
def appearsAt2 : Nat → Bool := fun i => i == 2

lemma init_wav_transcode_none (env : Env) (fuel : Nat) (file : String)
    (opt : Options) (h1 : env.isfile file = true)
    (hext : splitextExt file = ".wav") (hflac : env.flacPathExists = true)
    (htr : transcodeInvocations env.tmpAppears fuel = none) :
    googleSpeechInit env fuel file opt = none := by
  simp [googleSpeechInit, supportedExts, hext, h1, hflac, htr]

end GoogleSpeech

/-- C7 counterexample: with a wav input whose external encoder never
produces the output file, request construction completes for no retry
budget at all — the re-invocation loop is unbounded, never surfaces a
failure, and `GoogleSpeech.__init__` does not terminate. -/
theorem GoogleSpeech.transcode_unbounded_cex :
    ¬ ∃ (fuel : Nat) (r : Except GoogleSpeech.InitError GoogleSpeech.Request ×
        List GoogleSpeech.Action),
      GoogleSpeech.googleSpeechInit GoogleSpeech.envEncoderStuck fuel
        "clip.wav" GoogleSpeech.gsOptionsDefault = some r := by
  rintro ⟨fuel, r, h⟩
  rw [GoogleSpeech.init_wav_transcode_none GoogleSpeech.envEncoderStuck fuel
    "clip.wav" GoogleSpeech.gsOptionsDefault rfl (by decide) rfl
    (GoogleSpeech.transcodeFromFuel_none_of_false _ fuel 0
      fun j _ _ => rfl)] at h
  exact Option.noConfusion h

/-- C7 (amended): the wav transcode loop re-invokes the external encoder
until the output file appears, with no retry bound and no TranscodeFailure
error: if the output appears at invocation `n` within the fuel horizon the
loop exits after at most `n + 1` invocations, any exit implies the output
actually appeared at its last invocation, and whenever the output is
missing at every check within the horizon the loop has not exited (so the
construction does not terminate). -/
theorem GoogleSpeech.transcode_retries_until_appears (appears : Nat → Bool)
    (fuel n : Nat) (hn : appears n = true) (hfuel : n < fuel) :
    (∃ k, GoogleSpeech.transcodeInvocations appears fuel = some k ∧
      k ≤ n + 1 ∧ 1 ≤ k ∧ appears (k - 1) = true) ∧
    (∀ (g : Nat → Bool) (f2 : Nat), (∀ i, i < f2 → g i = false) →
      GoogleSpeech.transcodeInvocations g f2 = none) := by
  constructor
  · obtain ⟨k, hk, hk2, hk3⟩ :=
      GoogleSpeech.transcodeFromFuel_finds appears fuel 0 n (Nat.zero_le n)
        (by omega) hn
    obtain ⟨_, happ⟩ :=
      GoogleSpeech.transcodeFromFuel_some_appears appears fuel 0 k hk
    exact ⟨k, hk, hk2, by omega, happ⟩
  · intro g f2 hg
    exact GoogleSpeech.transcodeFromFuel_none_of_false g f2 0
      fun j _ h2 => hg j (by omega)

/-- Witness for C7's amended theorem: output appears at invocation 2 with
fuel 10. -/
theorem GoogleSpeech.transcode_retries_until_appears_witness :
    (∃ k, GoogleSpeech.transcodeInvocations GoogleSpeech.appearsAt2 10 =
        some k ∧ k ≤ 2 + 1 ∧ 1 ≤ k ∧ GoogleSpeech.appearsAt2 (k - 1) = true) ∧
    (∀ (g : Nat → Bool) (f2 : Nat), (∀ i, i < f2 → g i = false) →
      GoogleSpeech.transcodeInvocations g f2 = none) :=
  GoogleSpeech.transcode_retries_until_appears GoogleSpeech.appearsAt2 10 2
    rfl (by decide)

/-- C8: request construction checks file existence first — a missing file
raises IOError whatever the extension — and an extension outside
{.flac, .spx, .wav} raises the distinct SoundFormatNotSupported error with
a side-effect trace containing no transcoding, no file read, and no
request construction (so before any network resource is touched). -/
theorem GoogleSpeech.init_existence_and_format_checks
    (env env2 : GoogleSpeech.Env) (fuel fuel2 : Nat) (file : String)
    (opt : GoogleSpeech.Options)
    (hex : env.isfile file = true)
    (hbad : GoogleSpeech.supportedExts.contains
      (GoogleSpeech.splitextExt file) = false)
    (hmiss : env2.isfile file = false) :
    (GoogleSpeech.googleSpeechInit env fuel file opt =
      some (.error (.soundFormatNotSupported
        ("Unsupported filetype: " ++ GoogleSpeech.splitextExt file)),
        [.checkIsFile])) ∧
    (∀ r acts, GoogleSpeech.googleSpeechInit env fuel file opt =
        some (r, acts) →
      GoogleSpeech.Action.transcodeInvoke ∉ acts ∧
      GoogleSpeech.Action.readFile ∉ acts ∧
      GoogleSpeech.Action.buildRequest ∉ acts) ∧
    (GoogleSpeech.googleSpeechInit env2 fuel2 file opt =
      some (.error (.ioError ("Cannot find file: " ++ file)),
        [.checkIsFile])) := by
  have h1 : GoogleSpeech.googleSpeechInit env fuel file opt =
      some (.error (.soundFormatNotSupported
        ("Unsupported filetype: " ++ GoogleSpeech.splitextExt file)),
        [.checkIsFile]) := by
    simp only [GoogleSpeech.googleSpeechInit]
    rw [hex, hbad]
    simp
  refine ⟨h1, ?_, by
    simp only [GoogleSpeech.googleSpeechInit]
    rw [hmiss]
    simp⟩
  intro r acts h
  rw [h1] at h
  obtain h2 := Option.some.inj h
  have hacts : acts = [.checkIsFile] := congrArg Prod.snd h2.symm
  rw [hacts]
  exact ⟨by decide, by decide, by decide⟩

/-- Witness for C8: an existing `.mp3` file and a missing file. -/
theorem GoogleSpeech.init_existence_and_format_checks_witness :
    (GoogleSpeech.googleSpeechInit GoogleSpeech.envAllFiles 3 "clip.mp3"
        GoogleSpeech.gsOptionsDefault =
      some (.error (.soundFormatNotSupported
        ("Unsupported filetype: " ++ GoogleSpeech.splitextExt "clip.mp3")),
        [.checkIsFile])) ∧
    (∀ r acts, GoogleSpeech.googleSpeechInit GoogleSpeech.envAllFiles 3
        "clip.mp3" GoogleSpeech.gsOptionsDefault = some (r, acts) →
      GoogleSpeech.Action.transcodeInvoke ∉ acts ∧
      GoogleSpeech.Action.readFile ∉ acts ∧
      GoogleSpeech.Action.buildRequest ∉ acts) ∧
    (GoogleSpeech.googleSpeechInit GoogleSpeech.envNoFiles 3 "clip.mp3"
        GoogleSpeech.gsOptionsDefault =
      some (.error (.ioError ("Cannot find file: " ++ "clip.mp3")),
        [.checkIsFile])) :=
  GoogleSpeech.init_existence_and_format_checks GoogleSpeech.envAllFiles
    GoogleSpeech.envNoFiles 3 3 "clip.mp3" GoogleSpeech.gsOptionsDefault
    rfl (by decide) rfl

/-- C9: the request built from options processed by `_parse_options` has a
Content-Type header encoding exactly the requested rate when it is 8000 or
16000, any other requested rate having been normalized to 16000 before the
header is built; concretely the header renders as
`audio/x-flac; rate=8000` / `audio/x-flac; rate=16000`. -/
theorem GoogleSpeech.request_rate_normalization
    (env : GoogleSpeech.Env) (fuel : Nat) (file audio : String)
    (o : GoogleSpeech.Options) (r : Int)
    (hex : env.isfile file = true)
    (hflac : GoogleSpeech.splitextExt file = ".flac")
    (hread : env.readResult = some audio) :
    ((r = 16000 ∨ r = 8000) →
      (GoogleSpeech.parseOptionsPost
        { o with samplingrate := r }).samplingrate = r) ∧
    (¬(r = 16000 ∨ r = 8000) →
      (GoogleSpeech.parseOptionsPost
        { o with samplingrate := r }).samplingrate = 16000) ∧
    (∃ acts req, GoogleSpeech.googleSpeechInit env fuel file
        (GoogleSpeech.parseOptionsPost { o with samplingrate := r }) =
          some (.ok req, acts) ∧
      req.contentType = GoogleSpeech.contentTypeHeader "x-flac"
        ((GoogleSpeech.parseOptionsPost
          { o with samplingrate := r }).samplingrate)) ∧
    (GoogleSpeech.contentTypeHeader "x-flac" 8000 =
        "audio/x-flac; rate=8000" ∧
      GoogleSpeech.contentTypeHeader "x-flac" 16000 =
        "audio/x-flac; rate=16000") := by
  refine ⟨?_, ?_, ?_, by decide, by decide⟩
  · intro hr
    simp [GoogleSpeech.parseOptionsPost, hr]
  · intro hr
    simp [GoogleSpeech.parseOptionsPost, hr]
  · refine ⟨[.checkIsFile, .readFile, .buildRequest],
      GoogleSpeech.mkRequest
        (GoogleSpeech.parseOptionsPost { o with samplingrate := r })
        "x-flac" audio, ?_, rfl⟩
    simp only [GoogleSpeech.googleSpeechInit]
    rw [hflac, hex, hread]
    simp
    decide

/-- Witness for C9: a flac file with an unsupported requested rate 44100. -/
theorem GoogleSpeech.request_rate_normalization_witness :
    ((44100 : Int) = 16000 ∨ (44100 : Int) = 8000 →
      (GoogleSpeech.parseOptionsPost
        { GoogleSpeech.gsOptionsDefault with
          samplingrate := 44100 }).samplingrate = 44100) ∧
    (¬((44100 : Int) = 16000 ∨ (44100 : Int) = 8000) →
      (GoogleSpeech.parseOptionsPost
        { GoogleSpeech.gsOptionsDefault with
          samplingrate := 44100 }).samplingrate = 16000) ∧
    (∃ acts req, GoogleSpeech.googleSpeechInit GoogleSpeech.envAllFiles 3
        "clip.flac"
        (GoogleSpeech.parseOptionsPost
          { GoogleSpeech.gsOptionsDefault with samplingrate := 44100 }) =
          some (.ok req, acts) ∧
      req.contentType = GoogleSpeech.contentTypeHeader "x-flac"
        ((GoogleSpeech.parseOptionsPost
          { GoogleSpeech.gsOptionsDefault with
            samplingrate := 44100 }).samplingrate)) ∧
    (GoogleSpeech.contentTypeHeader "x-flac" 8000 =
        "audio/x-flac; rate=8000" ∧
      GoogleSpeech.contentTypeHeader "x-flac" 16000 =
        "audio/x-flac; rate=16000") :=
  GoogleSpeech.request_rate_normalization GoogleSpeech.envAllFiles 3
    "clip.flac" "AUDIO" GoogleSpeech.gsOptionsDefault 44100 rfl (by decide)
    rfl
